import Mathlib

/-!
Verification of the transaction lifecycle, query and statistics layers of a
UPI-style payment gateway server (src/server.js), via a shallow embedding.

Timestamps are modelled as integers, monetary amounts and the uniform random
draws of the server as rationals, the MongoDB collection as a list of
documents, and the asynchronous setTimeout resolutions as a step relation on
a server state carrying the store together with the set of scheduled,
not yet fired, resolution timers.
-/

namespace Payment

/-- Transaction status (schema field status, enum pending/success/failed). -/
inductive Status
  | pending
  | success
  | failed
deriving DecidableEq, Repr

/-- String form of a status, as stored and as queried over HTTP. -/
def statusToString : Status → String
  | .pending => "pending"
  | .success => "success"
  | .failed => "failed"

/-- A stored transaction document (mongoose transactionSchema). -/
structure Transaction where
  transactionId : String
  utrId : Option String
  amount : ℚ
  description : String
  status : Status
  upiId : String
  date : ℤ
  paymentDate : Option ℤ
deriving DecidableEq, Repr

/-- JavaScript `x || dflt` on an optional string: absent and empty are falsy. -/
def jsStringOr (v : Option String) (dflt : String) : String :=
  match v with
  | none => dflt
  | some s => if s = "" then dflt else s

/-- The document built by the create route: status pending, utrId and
paymentDate at their null schema defaults, description and upiId defaulted. -/
def mkTransaction (txnId : String) (now : ℤ) (amount : ℚ)
    (description upiId : Option String) : Transaction :=
  { transactionId := txnId
    utrId := none
    amount := amount
    description := jsStringOr description "Payment"
    status := Status.pending
    upiId := jsStringOr upiId "8618505915@fam"
    date := now
    paymentDate := none }

/-- generateUTRId: Math.floor(100000000000 + Math.random() * 900000000000),
with the uniform random draw r in [0,1) passed explicitly. -/
def generateUTRId (r : ℚ) : ℤ :=
  ⌊(100000000000 : ℚ) + r * 900000000000⌋

/-- Body of the deferred resolution callback acting on the matched document:
a draw greater than 0.1 sets status success together with utrId and
paymentDate; otherwise only status failed is written. -/
def resolveUpdate (draw : ℚ) (utr : String) (settleTime : ℤ)
    (t : Transaction) : Transaction :=
  if 1 / 10 < draw then
    { t with status := Status.success, utrId := some utr,
             paymentDate := some settleTime }
  else
    { t with status := Status.failed }

/-- Transaction.findOneAndUpdate on a list store: rewrite the first document
whose transactionId matches, leave everything else alone. -/
def findOneAndUpdate (id : String) (f : Transaction → Transaction) :
    List Transaction → List Transaction
  | [] => []
  | t :: rest =>
    if t.transactionId = id then f t :: rest
    else t :: findOneAndUpdate id f rest

/-- Server state: the persistent store plus the ids having a scheduled, not
yet fired, resolution timer. -/
structure SysState where
  store : List Transaction
  scheduled : List String
deriving Repr

/-- Initial state: empty store, no timers. -/
def SysState.init : SysState := ⟨[], []⟩

/-- POST /api/transactions: the validation `!amount || amount <= 0` answers
400 and does nothing else; otherwise the pending document is saved, a
resolution timer is scheduled, and the route answers 201. -/
def postTransaction (s : SysState) (txnId : String) (now : ℤ)
    (amount : Option ℚ) (description upiId : Option String) : SysState × ℕ :=
  match amount with
  | none => (s, 400)
  | some a =>
    if a ≤ 0 then (s, 400)
    else (⟨s.store ++ [mkTransaction txnId now a description upiId],
            txnId :: s.scheduled⟩, 201)

/-- One observable transition of the server: a successful create (fresh id by
the unique index on transactionId, positive amount), or a scheduled timer
firing its resolution callback with a fresh draw. -/
inductive Step : SysState → SysState → Prop
  | create (s : SysState) (txnId : String) (now : ℤ) (a : ℚ)
      (description upiId : Option String)
      (hfresh : txnId ∉ s.store.map Transaction.transactionId)
      (hamt : 0 < a) :
      Step s ⟨s.store ++ [mkTransaction txnId now a description upiId],
              txnId :: s.scheduled⟩
  | resolve (s : SysState) (id : String) (draw : ℚ) (utr : String)
      (settleTime : ℤ) (hid : id ∈ s.scheduled) :
      Step s ⟨findOneAndUpdate id (resolveUpdate draw utr settleTime) s.store,
              s.scheduled.erase id⟩

/-- States reachable from the empty server by creates and resolutions. -/
inductive Reachable : SysState → Prop
  | init : Reachable SysState.init
  | step {s s' : SysState} : Reachable s → Step s s' → Reachable s'

/-- Sort relation used by .sort with date: -1, newest first. -/
def dateDesc (a b : Transaction) : Prop := b.date ≤ a.date

instance : DecidableRel dateDesc :=
  fun a b => inferInstanceAs (Decidable (b.date ≤ a.date))

instance : IsTotal Transaction dateDesc := ⟨fun a b => le_total b.date a.date⟩

instance : IsTrans Transaction dateDesc := ⟨fun _ _ _ hab hbc => le_trans hbc hab⟩

/-- Filter document built from the query string: a status equality clause when
status is truthy and not the sentinel all, and optional closed bounds on the
creation date. -/
def matchesFilter (status : Option String) (startDate endDate : Option ℤ)
    (t : Transaction) : Bool :=
  (match status with
   | some st =>
     if st = "" ∨ st = "all" then true else decide (statusToString t.status = st)
   | none => true) &&
  (match startDate with
   | some sd => decide (sd ≤ t.date)
   | none => true) &&
  (match endDate with
   | some ed => decide (t.date ≤ ed)
   | none => true)

/-- Matching documents sorted newest first: find(filter).sort(date: -1). -/
def sortedMatching (store : List Transaction) (status : Option String)
    (sd ed : Option ℤ) : List Transaction :=
  List.insertionSort dateDesc (store.filter (matchesFilter status sd ed))

/-- GET /api/transactions for positive integer page and limit: the returned
page (skip (page-1)*limit then take limit of the sorted matches), the total
matching count from countDocuments, and pages = Math.ceil(total / limit). -/
def listTransactions (store : List Transaction) (status : Option String)
    (sd ed : Option ℤ) (page limit : ℕ) : List Transaction × ℕ × ℕ :=
  (((sortedMatching store status sd ed).drop ((page - 1) * limit)).take limit,
   (store.filter (matchesFilter status sd ed)).length,
   (⌈((store.filter (matchesFilter status sd ed)).length : ℚ) / (limit : ℚ)⌉).toNat)

/-- Specification-side reading of the filter: the conjunction of an optional
status equality (skipped for the sentinel all) and optional closed bounds on
the creation date. -/
def filterSpec (status : Option String) (sd ed : Option ℤ)
    (t : Transaction) : Prop :=
  (∀ st, status = some st → st ≠ "all" → statusToString t.status = st) ∧
  (∀ a, sd = some a → a ≤ t.date) ∧
  (∀ b, ed = some b → t.date ≤ b)

/-- Offset computed by the list handler: (page - 1) * limit, with no clamping
of degenerate inputs. -/
def querySkip (page limit : ℤ) : ℤ := (page - 1) * limit

/-- Modelled from the spec: the documented degenerate-input behavior treats a
non-positive page as 1 and a non-positive limit as the system default 10. -/
def querySkipClamped (page limit : ℤ) : ℤ :=
  (max page 1 - 1) * (if limit ≤ 0 then 10 else limit)

/-- countDocuments() with no filter. -/
def countAll (store : List Transaction) : ℕ := store.length

/-- countDocuments with a status equality filter. -/
def countWithStatus (store : List Transaction) (s : Status) : ℕ :=
  (store.filter (fun t => decide (t.status = s))).length

/-- Frame relation for one resolution targeting id: identity, amount,
description, upiId and creation date survive, and any document with a
different id is untouched. -/
def resolveFrame (id : String) (t t' : Transaction) : Prop :=
  t'.transactionId = t.transactionId ∧ t'.amount = t.amount ∧
  t'.description = t.description ∧ t'.upiId = t.upiId ∧ t'.date = t.date ∧
  (t.transactionId ≠ id → t' = t)

/-- Inductive invariant of the server: timers are unique and point at stored
pending documents, and the settlement fields track the status. -/
def Inv (s : SysState) : Prop :=
  s.scheduled.Nodup ∧
  (∀ id ∈ s.scheduled, id ∈ s.store.map Transaction.transactionId) ∧
  (∀ t ∈ s.store, t.transactionId ∈ s.scheduled → t.status = Status.pending) ∧
  (∀ t ∈ s.store, t.utrId ≠ none ↔ t.status = Status.success) ∧
  (∀ t ∈ s.store, t.paymentDate ≠ none ↔ t.status = Status.success)

/-- Document as created by the demo create call. -/
def demoPendingRecord : Transaction := mkTransaction "TXN1" 0 100 none none

/-- State after one successful create. -/
def demoCreated : SysState :=
  ⟨SysState.init.store ++ [demoPendingRecord], "TXN1" :: SysState.init.scheduled⟩

/-- State after the demo transaction resolves with draw 0, a failure. -/
def demoFailed : SysState :=
  ⟨findOneAndUpdate "TXN1" (resolveUpdate 0 "987654321098" 3) demoCreated.store,
   demoCreated.scheduled.erase "TXN1"⟩

/-- The stored document after the failing resolution. -/
def demoFailedRecord : Transaction :=
  { transactionId := "TXN1", utrId := none, amount := 100,
    description := "Payment", status := Status.failed,
    upiId := "8618505915@fam", date := 0, paymentDate := none }

/-- State after the demo transaction resolves with draw one half, a success. -/
def demoSuccess : SysState :=
  ⟨findOneAndUpdate "TXN1" (resolveUpdate (1 / 2) "987654321098" 3)
     demoCreated.store,
   demoCreated.scheduled.erase "TXN1"⟩

/-- The stored document after the successful resolution. -/
def demoSuccessRecord : Transaction :=
  { transactionId := "TXN1", utrId := some "987654321098", amount := 100,
    description := "Payment", status := Status.success,
    upiId := "8618505915@fam", date := 0, paymentDate := some 3 }

/-- Demo store for the pagination witness. -/
def demoStore : List Transaction :=
  [mkTransaction "A" 5 10 none none, mkTransaction "B" 7 20 none none]

/-- The resolution callback never touches identity, amount, description,
upiId or the creation date. -/
lemma resolveUpdate_fields (d : ℚ) (u : String) (τ : ℤ) (t : Transaction) :
    (resolveUpdate d u τ t).transactionId = t.transactionId ∧
    (resolveUpdate d u τ t).amount = t.amount ∧
    (resolveUpdate d u τ t).description = t.description ∧
    (resolveUpdate d u τ t).upiId = t.upiId ∧
    (resolveUpdate d u τ t).date = t.date := by
  unfold resolveUpdate
  split <;> exact ⟨rfl, rfl, rfl, rfl, rfl⟩

/-- Membership in an updated store: the document is an old one, or the update
of a matching old one. -/
lemma mem_findOneAndUpdate {id : String} {f : Transaction → Transaction}
    {l : List Transaction} {t' : Transaction}
    (h : t' ∈ findOneAndUpdate id f l) :
    t' ∈ l ∨ ∃ t ∈ l, t.transactionId = id ∧ t' = f t := by
  induction l with
  | nil => simp [findOneAndUpdate] at h
  | cons a rest ih =>
    unfold findOneAndUpdate at h
    by_cases ha : a.transactionId = id
    · rw [if_pos ha] at h
      rcases List.mem_cons.mp h with h | h
      · exact Or.inr ⟨a, List.mem_cons_self a rest, ha, h⟩
      · exact Or.inl (List.mem_cons_of_mem a h)
    · rw [if_neg ha] at h
      rcases List.mem_cons.mp h with h | h
      · exact Or.inl (h ▸ List.mem_cons_self a rest)
      · rcases ih h with h' | ⟨t, ht, hid, hft⟩
        · exact Or.inl (List.mem_cons_of_mem a h')
        · exact Or.inr ⟨t, List.mem_cons_of_mem a ht, hid, hft⟩

/-- An update that preserves transactionId preserves the stored id multiset. -/
lemma map_txnId_findOneAndUpdate (id : String) (f : Transaction → Transaction)
    (hf : ∀ t, (f t).transactionId = t.transactionId) (l : List Transaction) :
    (findOneAndUpdate id f l).map Transaction.transactionId =
      l.map Transaction.transactionId := by
  induction l with
  | nil => rfl
  | cons a rest ih =>
    unfold findOneAndUpdate
    by_cases ha : a.transactionId = id
    · rw [if_pos ha]
      simp [hf]
    · rw [if_neg ha]
      simp [ih]

/-- The empty server satisfies the invariant. -/
lemma inv_init : Inv SysState.init := by
  refine ⟨List.nodup_nil, ?_, ?_, ?_, ?_⟩ <;> intro t ht <;> simp [SysState.init] at ht

/-- Every server step preserves the invariant. -/
lemma inv_step {s s' : SysState} (hInv : Inv s) (hstep : Step s s') : Inv s' := by
  obtain ⟨hnd, hsub, hpend, hutr, hpay⟩ := hInv
  cases hstep with
  | create txnId now a description upiId hfresh hamt =>
    have htxn : txnId ∉ s.scheduled := fun hmem => hfresh (hsub _ hmem)
    refine ⟨List.nodup_cons.mpr ⟨htxn, hnd⟩, ?_, ?_, ?_, ?_⟩
    · intro id hid
      rcases List.mem_cons.mp hid with h | h
      · subst h
        simp [mkTransaction]
      · have := hsub id h
        simp only [List.map_append, List.mem_append]
        exact Or.inl this
    · intro t ht hmem
      rcases List.mem_append.mp ht with h | h
      · rcases List.mem_cons.mp hmem with he | he
        · exact absurd (he ▸ List.mem_map_of_mem Transaction.transactionId h) hfresh
        · exact hpend t h he
      · rcases List.mem_singleton.mp h with rfl
        rfl
    · intro t ht
      rcases List.mem_append.mp ht with h | h
      · exact hutr t h
      · rcases List.mem_singleton.mp h with rfl
        simp [mkTransaction]
    · intro t ht
      rcases List.mem_append.mp ht with h | h
      · exact hpay t h
      · rcases List.mem_singleton.mp h with rfl
        simp [mkTransaction]
  | resolve id draw utr settleTime hid =>
    have hmapEq :
        (findOneAndUpdate id (resolveUpdate draw utr settleTime) s.store).map
            Transaction.transactionId = s.store.map Transaction.transactionId :=
      map_txnId_findOneAndUpdate id _
        (fun t => (resolveUpdate_fields draw utr settleTime t).1) s.store
    refine ⟨hnd.erase id, ?_, ?_, ?_, ?_⟩
    · intro id' hid'
      rw [hmapEq]
      exact hsub id' (List.mem_of_mem_erase hid')
    · intro t ht hmem
      rcases mem_findOneAndUpdate ht with h | ⟨t₀, ht₀, hid₀, heq⟩
      · exact hpend t h (List.mem_of_mem_erase hmem)
      · exfalso
        have hteq : t.transactionId = id := by
          rw [heq, (resolveUpdate_fields draw utr settleTime t₀).1, hid₀]
        rw [hteq] at hmem
        exact hnd.not_mem_erase hmem
    · intro t ht
      rcases mem_findOneAndUpdate ht with h | ⟨t₀, ht₀, hid₀, heq⟩
      · exact hutr t h
      · subst heq
        have hp : t₀.status = Status.pending := hpend t₀ ht₀ (hid₀ ▸ hid)
        have hu : t₀.utrId = none := by
          by_contra hne
          have := (hutr t₀ ht₀).mp hne
          rw [hp] at this
          exact Status.noConfusion this
        unfold resolveUpdate
        split
        · simp
        · simp [hu]
    · intro t ht
      rcases mem_findOneAndUpdate ht with h | ⟨t₀, ht₀, hid₀, heq⟩
      · exact hpay t h
      · subst heq
        have hp : t₀.status = Status.pending := hpend t₀ ht₀ (hid₀ ▸ hid)
        have hq : t₀.paymentDate = none := by
          by_contra hne
          have := (hpay t₀ ht₀).mp hne
          rw [hp] at this
          exact Status.noConfusion this
        unfold resolveUpdate
        split
        · simp
        · simp [hq]

/-- The invariant holds in every reachable state. -/
lemma reachable_inv {s : SysState} (h : Reachable s) : Inv s := by
  induction h with
  | init => exact inv_init
  | step _ hstep ih => exact inv_step ih hstep

/-- A valid create is exactly the successful branch of the POST route. -/
lemma postTransaction_valid (s : SysState) (txnId : String) (now : ℤ) (a : ℚ)
    (description upiId : Option String) (ha : 0 < a) :
    postTransaction s txnId now (some a) description upiId =
      (⟨s.store ++ [mkTransaction txnId now a description upiId],
        txnId :: s.scheduled⟩, 201) := by
  show (if a ≤ 0 then (s, 400) else _) = _
  rw [if_neg (not_le.mpr ha)]

/-- The demo create state is reachable. -/
lemma reachable_demoCreated : Reachable demoCreated :=
  Reachable.step Reachable.init
    (Step.create SysState.init "TXN1" 0 100 none none
      (by simp [SysState.init]) (by norm_num))

/-- The demo failure state is reachable. -/
lemma reachable_demoFailed : Reachable demoFailed :=
  Reachable.step reachable_demoCreated
    (Step.resolve demoCreated "TXN1" 0 "987654321098" 3
      (by simp [demoCreated, SysState.init]))

/-- The demo success state is reachable. -/
lemma reachable_demoSuccess : Reachable demoSuccess :=
  Reachable.step reachable_demoCreated
    (Step.resolve demoCreated "TXN1" (1 / 2) "987654321098" 3
      (by simp [demoCreated, SysState.init]))

/-- Evaluating the failing resolution callback on the demo document. -/
lemma resolveUpdate_demo_fail :
    resolveUpdate 0 "987654321098" 3 demoPendingRecord = demoFailedRecord := by
  unfold resolveUpdate
  rw [if_neg (by norm_num)]
  rfl

/-- Evaluating the successful resolution callback on the demo document. -/
lemma resolveUpdate_demo_success :
    resolveUpdate (1 / 2) "987654321098" 3 demoPendingRecord =
      demoSuccessRecord := by
  unfold resolveUpdate
  rw [if_pos (by norm_num)]
  rfl

/-- Evaluating the failing resolution on the demo store. -/
lemma demoFailed_store : demoFailed.store = [demoFailedRecord] := by
  show findOneAndUpdate "TXN1" (resolveUpdate 0 "987654321098" 3)
      (SysState.init.store ++ [demoPendingRecord]) = [demoFailedRecord]
  rw [show SysState.init.store ++ [demoPendingRecord] = [demoPendingRecord] from rfl]
  unfold findOneAndUpdate
  rw [if_pos (show demoPendingRecord.transactionId = "TXN1" from rfl),
    resolveUpdate_demo_fail]

/-- Evaluating the successful resolution on the demo store. -/
lemma demoSuccess_store : demoSuccess.store = [demoSuccessRecord] := by
  show findOneAndUpdate "TXN1" (resolveUpdate (1 / 2) "987654321098" 3)
      (SysState.init.store ++ [demoPendingRecord]) = [demoSuccessRecord]
  rw [show SysState.init.store ++ [demoPendingRecord] = [demoPendingRecord] from rfl]
  unfold findOneAndUpdate
  rw [if_pos (show demoPendingRecord.transactionId = "TXN1" from rfl),
    resolveUpdate_demo_success]

/-- Ceiling division of naturals through the rationals. -/
lemma toNat_ceil_div (m n : ℕ) (hn : 0 < n) :
    (⌈(m : ℚ) / (n : ℚ)⌉).toNat = (m + n - 1) / n := by
  obtain ⟨q, r, hq, hqr, hrlt⟩ :
      ∃ q r, q = (m + n - 1) / n ∧ n * q + r = m + n - 1 ∧ r < n :=
    ⟨_, _, rfl, Nat.div_add_mod _ _, Nat.mod_lt _ hn⟩
  have h1 : m ≤ n * q := by
    set k := n * q with hk
    omega
  have h2 : n * q < m + n := by
    set k := n * q with hk
    omega
  have hn' : (0 : ℚ) < (n : ℚ) := by exact_mod_cast hn
  have h1' : (m : ℚ) ≤ (n : ℚ) * (q : ℚ) := by exact_mod_cast h1
  have h2' : (n : ℚ) * (q : ℚ) < (m : ℚ) + (n : ℚ) := by exact_mod_cast h2
  have hceil : ⌈(m : ℚ) / (n : ℚ)⌉ = (q : ℤ) := by
    rw [Int.ceil_eq_iff]
    constructor
    · rw [lt_div_iff₀ hn']
      push_cast
      nlinarith
    · rw [div_le_iff₀ hn']
      push_cast
      nlinarith
  rw [hceil, hq]
  exact Int.toNat_natCast _

/-- Frame relation is reflexive: an untouched document is its own frame. -/
lemma resolveFrame_refl (id : String) (t : Transaction) : resolveFrame id t t :=
  ⟨rfl, rfl, rfl, rfl, rfl, fun _ => rfl⟩

/-- C1, counterexample: a reachable record (created, then resolved with draw 0,
a failure) whose status has left pending while settledAt/paymentDate is still
null, refuting the claimed iff between a set settledAt and a non-pending
status. -/
theorem settledAt_iff_not_pending_cex :
    Reachable demoFailed ∧ demoFailedRecord ∈ demoFailed.store ∧
    demoFailedRecord.status ≠ Status.pending ∧
    demoFailedRecord.paymentDate = none :=
  ⟨reachable_demoFailed,
   by rw [demoFailed_store]; exact List.mem_singleton.mpr rfl,
   fun h => Status.noConfusion h, rfl⟩

/-- C1, amended: for every transaction record reachable through the public
operations, settledAt/paymentDate is non-null if and only if the status is
success; in particular, after a Resolve ending in failed the record's
paymentDate stays null, because the failure branch only writes the status. -/
theorem paymentDate_iff_success {s : SysState} (hs : Reachable s)
    {t : Transaction} (ht : t ∈ s.store) :
    t.paymentDate ≠ none ↔ t.status = Status.success :=
  (reachable_inv hs).2.2.2.2 t ht

/-- C1, witness: the amended theorem evaluated on the demo failed record. -/
theorem paymentDate_iff_success_witness :
    demoFailedRecord.paymentDate ≠ none ↔
      demoFailedRecord.status = Status.success :=
  paymentDate_iff_success reachable_demoFailed
    (by rw [demoFailed_store]; exact List.mem_singleton.mpr rfl)

/-- C2: the resolution callback with draw d, settlement reference u and time τ
sets status success together with utrId u and paymentDate τ exactly when
d is greater than 0.1, and otherwise sets status failed leaving the
settlement reference null; the set of draws in [0,1) yielding success is the
interval (1/10, 1), of length 9/10, so success has probability 0.9 under the
uniform draw. -/
theorem resolve_outcome_semantics (d : ℚ) (u : String) (τ : ℤ)
    (t : Transaction) (h : t.utrId = none) :
    (if 1 / 10 < d then
        resolveUpdate d u τ t =
          { t with status := Status.success, utrId := some u,
                   paymentDate := some τ }
      else
        (resolveUpdate d u τ t).status = Status.failed ∧
        (resolveUpdate d u τ t).utrId = none) ∧
    {x : ℚ | 0 ≤ x ∧ x < 1 ∧ 1 / 10 < x} = Set.Ioo (1 / 10 : ℚ) 1 ∧
    (1 : ℚ) - 1 / 10 = 9 / 10 := by
  refine ⟨?_, ?_, by norm_num⟩
  · by_cases hd : (1 : ℚ) / 10 < d
    · rw [if_pos hd]
      unfold resolveUpdate
      rw [if_pos hd]
    · rw [if_neg hd]
      unfold resolveUpdate
      rw [if_neg hd]
      exact ⟨rfl, h⟩
  · ext x
    simp only [Set.mem_setOf_eq, Set.mem_Ioo]
    constructor
    · rintro ⟨_, hx1, hx2⟩
      exact ⟨hx2, hx1⟩
    · rintro ⟨hx1, hx2⟩
      exact ⟨le_trans (by norm_num) (le_of_lt hx1), hx2, hx1⟩

/-- C2, witness: the resolution semantics evaluated at draw one half on the
demo pending document. -/
theorem resolve_outcome_semantics_witness :
    (if 1 / 10 < (1 / 2 : ℚ) then
        resolveUpdate (1 / 2) "987654321098" 3 demoPendingRecord =
          { demoPendingRecord with
              status := Status.success
              utrId := some "987654321098"
              paymentDate := some 3 }
      else
        (resolveUpdate (1 / 2) "987654321098" 3 demoPendingRecord).status =
          Status.failed ∧
        (resolveUpdate (1 / 2) "987654321098" 3 demoPendingRecord).utrId =
          none) ∧
    {x : ℚ | 0 ≤ x ∧ x < 1 ∧ 1 / 10 < x} = Set.Ioo (1 / 10 : ℚ) 1 ∧
    (1 : ℚ) - 1 / 10 = 9 / 10 :=
  resolve_outcome_semantics (1 / 2) "987654321098" 3 demoPendingRecord rfl

/-- C3: a create request whose amount is missing, zero or negative answers 400
and leaves the whole server state unchanged: nothing is persisted and no
resolution is scheduled. -/
theorem create_invalid_amount (s : SysState) (txnId : String) (now : ℤ)
    (amount : Option ℚ) (description upiId : Option String)
    (h : amount = none ∨ ∃ a, amount = some a ∧ a ≤ 0) :
    postTransaction s txnId now amount description upiId = (s, 400) := by
  rcases h with h | ⟨a, ha, hle⟩
  · subst h
    rfl
  · subst ha
    show (if a ≤ 0 then (s, 400) else _) = _
    rw [if_pos hle]

/-- C3, witness: a zero amount against the empty server. -/
theorem create_invalid_amount_witness :
    postTransaction SysState.init "TXN1" 0 (some 0) none none =
      (SysState.init, 400) :=
  create_invalid_amount SysState.init "TXN1" 0 (some 0) none none
    (Or.inr ⟨0, rfl, le_refl 0⟩)

/-- C4: for every transaction record reachable through the public operations,
the settlement reference utrId is non-null if and only if the status is
success: null while pending, set exactly by a successful resolution, and
still null after a failing one. -/
theorem utrId_iff_success {s : SysState} (hs : Reachable s)
    {t : Transaction} (ht : t ∈ s.store) :
    t.utrId ≠ none ↔ t.status = Status.success :=
  (reachable_inv hs).2.2.2.1 t ht

/-- C4, witness: the invariant evaluated on the demo successful record. -/
theorem utrId_iff_success_witness :
    demoSuccessRecord.utrId ≠ none ↔
      demoSuccessRecord.status = Status.success :=
  utrId_iff_success reachable_demoSuccess
    (by rw [demoSuccess_store]; exact List.mem_singleton.mpr rfl)

/-- C5: for positive integer page and limit, the returned page is the slice of
the matching records starting at offset (page-1)*limit of length at most
limit, taken from the matches sorted newest first by creation date; the
reported total is the full matching count, pages is the ceiling of
total/limit, and a page beyond the last yields an empty record list. -/
theorem list_pagination_correct (store : List Transaction)
    (status : Option String) (sd ed : Option ℤ) (page limit : ℕ)
    (hp : 1 ≤ page) (hl : 1 ≤ limit) :
    (sortedMatching store status sd ed).Perm
        (store.filter (matchesFilter status sd ed)) ∧
    (sortedMatching store status sd ed).Sorted dateDesc ∧
    (listTransactions store status sd ed page limit).1 =
      ((sortedMatching store status sd ed).drop ((page - 1) * limit)).take
        limit ∧
    (listTransactions store status sd ed page limit).1.length ≤ limit ∧
    (listTransactions store status sd ed page limit).2.1 =
      (store.filter (matchesFilter status sd ed)).length ∧
    (listTransactions store status sd ed page limit).2.2 =
      ((store.filter (matchesFilter status sd ed)).length + limit - 1) /
        limit ∧
    ((store.filter (matchesFilter status sd ed)).length ≤
        (page - 1) * limit →
      (listTransactions store status sd ed page limit).1 = []) := by
  refine ⟨List.perm_insertionSort dateDesc _,
    List.sorted_insertionSort dateDesc _, rfl, ?_, rfl, ?_, ?_⟩
  · exact List.length_take_le limit _
  · exact toNat_ceil_div _ limit hl
  · intro hle
    show ((sortedMatching store status sd ed).drop ((page - 1) * limit)).take
        limit = []
    have hlen : (sortedMatching store status sd ed).length ≤
        (page - 1) * limit := by
      rw [sortedMatching, List.length_insertionSort]
      exact hle
    rw [List.drop_eq_nil_of_le hlen, List.take_nil]

/-- C5, witness: page 2 with limit 1 on the two-document demo store. -/
theorem list_pagination_correct_witness :
    (sortedMatching demoStore none none none).Perm
        (demoStore.filter (matchesFilter none none none)) ∧
    (sortedMatching demoStore none none none).Sorted dateDesc ∧
    (listTransactions demoStore none none none 2 1).1 =
      ((sortedMatching demoStore none none none).drop ((2 - 1) * 1)).take 1 ∧
    (listTransactions demoStore none none none 2 1).1.length ≤ 1 ∧
    (listTransactions demoStore none none none 2 1).2.1 =
      (demoStore.filter (matchesFilter none none none)).length ∧
    (listTransactions demoStore none none none 2 1).2.2 =
      ((demoStore.filter (matchesFilter none none none)).length + 1 - 1) /
        1 ∧
    ((demoStore.filter (matchesFilter none none none)).length ≤ (2 - 1) * 1 →
      (listTransactions demoStore none none none 2 1).1 = []) :=
  list_pagination_correct demoStore none none none 2 1 (by norm_num)
    (by norm_num)

/-- C6: the listing filter is the conjunction of a status equality constraint,
applied only when a (truthy) status is supplied and is not the sentinel all,
an optional lower and an optional upper bound on the creation date; when
both dates are supplied the accepted records are exactly those matching the
status constraint whose creation date lies in the closed interval. -/
theorem filter_conjunction_semantics (status : Option String)
    (sd ed : Option ℤ) (t : Transaction)
    (hs : ∀ st, status = some st → st ≠ "") :
    (matchesFilter status sd ed t = true ↔ filterSpec status sd ed t) ∧
    (∀ a b, sd = some a → ed = some b →
      (matchesFilter status sd ed t = true ↔
        ((∀ st, status = some st → st ≠ "all" →
            statusToString t.status = st) ∧
         t.date ∈ Set.Icc a b))) := by
  have hmain : matchesFilter status sd ed t = true ↔ filterSpec status sd ed t := by
    unfold matchesFilter filterSpec
    rcases status with _ | st
    · rcases sd with _ | a <;> rcases ed with _ | b <;> simp
    · have hne : st ≠ "" := hs st rfl
      by_cases hall : st = "all"
      · subst hall
        rcases sd with _ | a <;> rcases ed with _ | b <;> simp [hne]
      · rcases sd with _ | a <;> rcases ed with _ | b <;>
          simp [hne, hall, and_assoc]
  refine ⟨hmain, ?_⟩
  rintro a b rfl rfl
  rw [hmain]
  unfold filterSpec
  constructor
  · rintro ⟨h1, h2, h3⟩
    exact ⟨h1, Set.mem_Icc.mpr ⟨h2 a rfl, h3 b rfl⟩⟩
  · rintro ⟨h1, hd⟩
    obtain ⟨hd1, hd2⟩ := Set.mem_Icc.mp hd
    exact ⟨h1, fun x hx => Option.some.inj hx ▸ hd1,
      fun y hy => Option.some.inj hy ▸ hd2⟩

/-- C6, witness: no status constraint with both date bounds, on the demo
pending document. -/
theorem filter_conjunction_semantics_witness :
    (matchesFilter none (some 0) (some 10) demoPendingRecord = true ↔
      filterSpec none (some 0) (some 10) demoPendingRecord) ∧
    (∀ a b, (some 0 : Option ℤ) = some a → (some 10 : Option ℤ) = some b →
      (matchesFilter none (some 0) (some 10) demoPendingRecord = true ↔
        ((∀ st, (none : Option String) = some st → st ≠ "all" →
            statusToString demoPendingRecord.status = st) ∧
         demoPendingRecord.date ∈ Set.Icc a b))) :=
  filter_conjunction_semantics none (some 0) (some 10) demoPendingRecord
    (fun st h => nomatch h)

/-- C7, counterexample: for page 0 and limit 10 the handler's offset is -10,
while the documented treat-non-positive-page-as-1 behavior would give 0, so
the claimed clamping is not what the code does. -/
theorem querySkip_clamping_cex :
    querySkip 0 10 = -10 ∧ querySkipClamped 0 10 = 0 ∧
    querySkip 0 10 ≠ querySkipClamped 0 10 := by
  refine ⟨by norm_num [querySkip], by norm_num [querySkipClamped], ?_⟩
  norm_num [querySkip, querySkipClamped]

/-- C7, amended: the list handler applies no clamping to degenerate
pagination inputs: the offset handed to the store is always
(page - 1) * limit, which coincides with the documented clamped behavior
exactly on positive pages (for positive limit) and is negative whenever
page is non-positive, the limit being forwarded unchanged. -/
theorem querySkip_no_clamping (page limit : ℤ) (hl : 1 ≤ limit) :
    (1 ≤ page → querySkip page limit = querySkipClamped page limit) ∧
    (page ≤ 0 → querySkip page limit < 0) := by
  constructor
  · intro hp
    unfold querySkip querySkipClamped
    rw [max_eq_left hp, if_neg (by omega)]
  · intro hp
    unfold querySkip
    exact mul_neg_of_neg_of_pos (by omega) (by omega)

/-- C7, witness: the amended statement at page 0, limit 10. -/
theorem querySkip_no_clamping_witness :
    ((1 : ℤ) ≤ 0 → querySkip 0 10 = querySkipClamped 0 10) ∧
    ((0 : ℤ) ≤ 0 → querySkip 0 10 < 0) :=
  querySkip_no_clamping 0 10 (by norm_num)

/-- C8: the statistics counts partition the store: the total document count is
the sum of the success, pending and failed counts, because every stored
status is exactly one of the three enum values. -/
theorem stats_total_partition (store : List Transaction) :
    countAll store =
      countWithStatus store Status.success +
        countWithStatus store Status.pending +
        countWithStatus store Status.failed := by
  induction store with
  | nil => rfl
  | cons t rest ih =>
    unfold countAll countWithStatus at ih ⊢
    cases h : t.status <;>
      simp [List.filter_cons, h, List.length_cons] <;> omega

/-- C9: for every uniform draw r in [0,1), the generated settlement reference
is an integer in the closed range [100000000000, 999999999999], i.e. a
numeric string of exactly 12 digits. -/
theorem generateUTRId_range (r : ℚ) (h0 : 0 ≤ r) (h1 : r < 1) :
    (100000000000 : ℤ) ≤ generateUTRId r ∧
      generateUTRId r ≤ 999999999999 := by
  unfold generateUTRId
  constructor
  · apply Int.le_floor.mpr
    push_cast
    nlinarith
  · have hlt : ⌊(100000000000 : ℚ) + r * 900000000000⌋ < 1000000000000 := by
      apply Int.floor_lt.mpr
      push_cast
      nlinarith
    omega

/-- C9, witness: the draw one half. -/
theorem generateUTRId_range_witness :
    (100000000000 : ℤ) ≤ generateUTRId (1 / 2) ∧
      generateUTRId (1 / 2) ≤ 999999999999 :=
  generateUTRId_range (1 / 2) (by norm_num) (by norm_num)

/-- C10: one resolution update, whatever its outcome, only ever changes the
status, utrId and paymentDate fields of the targeted record: its
transactionId, amount, description, upiId and creation date are unchanged,
and every document with a different transactionId is left exactly as it
was. -/
theorem resolve_frame_effect (store : List Transaction) (id : String)
    (d : ℚ) (u : String) (τ : ℤ) :
    List.Forall₂ (resolveFrame id) store
      (findOneAndUpdate id (resolveUpdate d u τ) store) := by
  induction store with
  | nil => exact List.Forall₂.nil
  | cons t rest ih =>
    unfold findOneAndUpdate
    by_cases h : t.transactionId = id
    · rw [if_pos h]
      refine List.Forall₂.cons ?_
        (List.forall₂_same.mpr fun x _ => resolveFrame_refl id x)
      obtain ⟨h1, h2, h3, h4, h5⟩ := resolveUpdate_fields d u τ t
      exact ⟨h1, h2, h3, h4, h5, fun hne => absurd h hne⟩
    · rw [if_neg h]
      exact List.Forall₂.cons (resolveFrame_refl id t) ih

end Payment
